import Mathlib

/-!
Shallow embedding of the `coreclr-rs` host library (src/src/lib.rs and
src/src/loader/unix.rs) and proofs of the claims about it.

Modelling conventions:
* Rust `OsStr`/`PathBuf` values are modelled by `RPath`: either a Unicode
  string (so `to_str` yields `some`) or an opaque non-Unicode path
  (`to_str` yields `none`).  A Unicode string may still contain an interior
  NUL character, in which case `CString::new` fails.
* `io::Error` is modelled by `IoError`: either `Error::new(kind, msg)` or
  `Error::from_raw_os_error(code)`.
* Fallible Rust functions returning `io::Result` are modelled with
  `CallResult`, which also has a `panicked` outcome modelling an abrupt
  unwind (`.unwrap()` on an `Err`, or a panic crossing the FFI boundary).
* The foreign (coreclr) exports are black boxes: they are modelled as
  function-valued parameters (`ClrFunctions`), and each host operation
  additionally returns the list of foreign calls it performed (`FCall`),
  so that claims about which exports are invoked, how often and in which
  order become statements about that trace.
-/

/-- Opaque native addresses / handles (`*mut c_void`, delegate pointers). -/
abbrev Addr := Nat

/-- Model of a Rust path (`PathBuf` / `&Path`): either valid Unicode text or not. -/
inductive RPath where
  | utf8 (s : String)
  | nonUnicode
deriving DecidableEq

/-- Model of `Path::to_str`. -/
def RPath.to_str : RPath → Option String
  | .utf8 s => some s
  | .nonUnicode => none

/-- The `io::ErrorKind` values this crate uses. -/
inductive ErrorKind where
  | notFound
  | invalidInput
  | other
deriving DecidableEq

/-- Model of `std::io::Error`: either `Error::new(kind, msg)` or
`Error::from_raw_os_error(code)`. -/
inductive IoError where
  | new (kind : ErrorKind) (msg : String)
  | fromRawOsError (code : Int)
deriving DecidableEq

/-- Outcome of a host-side operation: `Ok`, `Err`, or an abrupt unwind
(a panic, e.g. from `.unwrap()` on an `Err`). -/
inductive CallResult (α : Type) where
  | ok (a : α)
  | err (e : IoError)
  | panicked
deriving DecidableEq

/-- Outcome of a foreign call: a returned value, or an abrupt unwind
surfacing back into host code. -/
inductive FfiOutcome (α : Type) where
  | ret (a : α)
  | unwind
deriving DecidableEq

/-- True exactly when the string has no interior NUL byte, i.e. when
`CString::new` succeeds on it. -/
def isCEncodable (s : String) : Bool :=
  !(s.toList.contains (Char.ofNat 0))

/-- The error produced by `CString::new` on a string with an interior NUL
(`From<NulError> for io::Error` yields an `InvalidInput` error). -/
def nulError : IoError :=
  IoError.new ErrorKind.invalidInput "data provided contains a nul byte"

/-- Model of `CString::new`: identity on NUL-free strings, `NulError`
(as an `io::Error`) otherwise. -/
def cstringNew (s : String) : Except IoError String :=
  if isCEncodable s then Except.ok s else Except.error nulError

/-- Model of `try!` on an `io::Result`: propagates the error. -/
def tryE {α : Type} : Except IoError α → CallResult α
  | .ok a => .ok a
  | .error e => .err e

/-- Model of `CString::new(s).unwrap()`: panics (abrupt unwind) on an
interior NUL instead of returning the error. -/
def cstringUnwrap (s : String) : CallResult String :=
  match cstringNew s with
  | .ok c => .ok c
  | .error _ => .panicked

/-- Monadic sequencing of host-side fallible steps (Rust early `return`). -/
def CallResult.bind {α β : Type} (x : CallResult α) (f : α → CallResult β) : CallResult β :=
  match x with
  | .ok a => f a
  | .err e => .err e
  | .panicked => .panicked

/-- The events a host operation can emit at the foreign boundary. -/
inductive FCall where
  | executeCall (argv : List String) (managedAssemblyPath : String)
  | delegateCall (assemblyName typeName methodName : String)
  | shutdownCall (hostHandle : Addr) (domainId : Nat) (result : Int)
  | releaseLibrary
deriving DecidableEq

/-- Model of a loaded `DynamicLibrary` (src/src/loader/unix.rs): symbol
resolution behaviour of the underlying `dlsym`. -/
structure DynamicLibrary where
  symbols : String → Except IoError Addr

/-- Model of `DynamicLibrary::resolve_symbol`. -/
def DynamicLibrary.resolve_symbol (l : DynamicLibrary) (name : String) : Except IoError Addr :=
  l.symbols name

/-- Model of `Drop for DynamicLibrary`: a single `dlclose`. -/
def DynamicLibrary.dropTrace (_l : DynamicLibrary) : List FCall :=
  [FCall.releaseLibrary]

/-- Model of `DynamicLibrary::load`: `CString::new` on the path, then the
platform `dlopen` (whose behaviour the environment supplies). -/
def DynamicLibrary.load (path : String) (os_dlopen : String → Except IoError DynamicLibrary) :
    Except IoError DynamicLibrary :=
  match cstringNew path with
  | .error e => .error e
  | .ok c => os_dlopen c

/-- Semantic behaviour of the four resolved coreclr exports (the `ClrFunctions`
struct; the `mem::transmute` of each resolved address is modelled by the
environment supplying these behaviours directly).  `init_fn` stands for the
source field holding `coreclr_initialize`. -/
structure ClrFunctions where
  init_fn : String → String → List String → List String → Int × Addr × Nat
  shutdown_fn : Addr → Nat → Int
  create_delegate_fn : Addr → Nat → String → String → String → Int × Addr
  execute_assembly_fn : Addr → Nat → List String → String → FfiOutcome (Int × Nat)

/-- Model of the `ClrHost` struct. -/
structure ClrHost where
  coreclr : DynamicLibrary
  coreclr_funs : ClrFunctions
  coreclr_handle : Addr
  domain_id : Nat

/-- Model of `ClrHost::create_delegate`: encode the three names (first
failure returns its error before any foreign call), then invoke the
delegate-creator export; nonzero result becomes a raw-OS error. -/
def ClrHost.create_delegate (h : ClrHost)
    (assembly_name entry_point_type_name entry_point_method : String) :
    CallResult Addr × List FCall :=
  match cstringNew assembly_name with
  | .error e => (.err e, [])
  | .ok assembly =>
    match cstringNew entry_point_type_name with
    | .error e => (.err e, [])
    | .ok ty =>
      match cstringNew entry_point_method with
      | .error e => (.err e, [])
      | .ok method =>
        let r := h.coreclr_funs.create_delegate_fn h.coreclr_handle h.domain_id assembly ty method
        if r.1 ≠ 0 then
          (.err (IoError.fromRawOsError r.1), [FCall.delegateCall assembly ty method])
        else
          (.ok r.2, [FCall.delegateCall assembly ty method])

/-- Model of the `argv` encoding loop of `execute_assembly_impl`:
each argument through `CString::new`, first failure propagated. -/
def encodeArgs : List String → Except IoError (List String)
  | [] => .ok []
  | a :: rest =>
    match cstringNew a with
    | .error e => .error e
    | .ok c => (encodeArgs rest).map (fun cs => c :: cs)

/-- Model of `ClrHost::execute_assembly_impl`: encode the arguments, check
the assembly path is Unicode and NUL-free, then invoke the executor export.
Nonzero result becomes a raw-OS error; zero yields the out-parameter. -/
def ClrHost.execute_assembly_impl (h : ClrHost) (args : List String) (assembly_path : RPath) :
    CallResult Nat × List FCall :=
  match encodeArgs args with
  | .error e => (.err e, [])
  | .ok argv =>
    match assembly_path.to_str with
    | none => (.err (IoError.new ErrorKind.invalidInput "assembly path is not UTF-8"), [])
    | some p =>
      match cstringNew p with
      | .error e => (.err e, [])
      | .ok asm_path =>
        match h.coreclr_funs.execute_assembly_fn h.coreclr_handle h.domain_id argv asm_path with
        | .unwind => (.panicked, [FCall.executeCall argv asm_path])
        | .ret (result, return_code) =>
          if result ≠ 0 then
            (.err (IoError.fromRawOsError result), [FCall.executeCall argv asm_path])
          else
            (.ok return_code, [FCall.executeCall argv asm_path])

/-- Model of `ClrHost::execute_assembly`: the `panic::catch_unwind` wrapper
around `execute_assembly_impl`, converting an abrupt unwind into
`Error::new(Other, "unhandled CLR exception")`. -/
def ClrHost.execute_assembly (h : ClrHost) (args : List String) (assembly_path : RPath) :
    CallResult Nat × List FCall :=
  let result := h.execute_assembly_impl args assembly_path
  match result.1 with
  | .ok return_code => (.ok return_code, result.2)
  | .err e => (.err e, result.2)
  | .panicked => (.err (IoError.new ErrorKind.other "unhandled CLR exception"), result.2)

/-- Model of `Drop for ClrHost`: call the shutdown export (recording its
result code in the trace but discarding it, hence the `Unit`-valued `ok`),
then drop the owned `DynamicLibrary` (which performs `dlclose`). -/
def ClrHost.drop (h : ClrHost) : CallResult Unit × List FCall :=
  (.ok (),
    FCall.shutdownCall h.coreclr_handle h.domain_id
      (h.coreclr_funs.shutdown_fn h.coreclr_handle h.domain_id)
    :: h.coreclr.dropTrace)

/-- An operation a caller may perform on a live host before it is dropped. -/
inductive HostOp where
  | execOp (args : List String) (path : RPath)
  | delegateOp (assemblyName typeName methodName : String)

/-- The foreign-call trace of one host operation. -/
def ClrHost.runOp (h : ClrHost) : HostOp → List FCall
  | .execOp args p => (h.execute_assembly args p).2
  | .delegateOp a t m => (h.create_delegate a t m).2

/-- The full foreign-call trace of a host's lifetime: any number of
execute/create-delegate calls, then the drop at end of life. -/
def ClrHost.lifetimeTrace (h : ClrHost) (ops : List HostOp) : List FCall :=
  (ops.map h.runOp).flatten ++ (h.drop).2

/-- True for the events emitted by in-life operations (executor or
delegate-creator invocations). -/
def FCall.isInvoke : FCall → Bool
  | .executeCall _ _ => true
  | .delegateCall _ _ _ => true
  | .shutdownCall _ _ _ => false
  | .releaseLibrary => false

/-- True exactly for shutdown-export invocations. -/
def FCall.isShutdown : FCall → Bool
  | .shutdownCall _ _ _ => true
  | _ => false

/-- True exactly for the library-release (`dlclose`) event. -/
def FCall.isRelease : FCall → Bool
  | .releaseLibrary => true
  | _ => false

/-- The characters of the file-name component of a path: everything after
the last `/` (the whole string when there is no `/`).  Directory entries
produced by `read_dir` always have a file-name component. -/
def fileNameChars (p : String) : List Char :=
  (p.toList.reverse.takeWhile (fun c => c ≠ '/')).reverse

/-- Model of `Path::extension` on a directory-entry path: the portion of
the file name after the final `.`; `none` when the file name has no `.`,
or starts with its only `.`. -/
def pathExtension (p : String) : Option String :=
  let rev := (fileNameChars p).reverse
  if rev.contains '.' then
    let rest := rev.dropWhile (fun c => c ≠ '.')
    if rest.length ≤ 1 then none
    else some (String.mk ((rev.takeWhile (fun c => c ≠ '.')).reverse))
  else none

/-- True when a directory entry survives the `"dll" | "exe"` match of
`build_tpas` (case-sensitive comparison of the extension text). -/
def tpasKeep (p : String) : Bool :=
  match pathExtension p with
  | some s => s = "dll" || s = "exe"
  | none => false

/-- The buffer-accumulation loop of `build_tpas`: keep entries whose
extension is `dll` or `exe`, skipping any path already in the seen set. -/
def tpasGo : List String → List String → List String
  | [], _ => []
  | e :: rest, seen =>
    if tpasKeep e then
      if e ∈ seen then tpasGo rest seen
      else e :: tpasGo rest (e :: seen)
    else tpasGo rest seen

/-- The deduplicated, order-preserving list `build_tpas` joins. -/
def tpasList (entries : List String) : List String :=
  tpasGo entries []

/-- Model of `build_tpas` on a directory listing (the entries' full paths,
in directory order): the kept paths joined with `:`.  Entries are modelled
as Unicode text; the `read_dir`/per-entry errors are handled by the caller
(`buildTpasIo`). -/
def build_tpas (entries : List String) : String :=
  String.intercalate ":" (tpasList entries)

/-- Model of the fallible shell of `build_tpas`: a failing directory read
propagates its error; a successful one yields the pure scan. -/
def buildTpasIo (listing : Except IoError (List String)) : Except IoError String :=
  listing.map build_tpas

/-- Model of the `ClrHostBuilder` struct. -/
structure ClrHostBuilder where
  server_gc : Bool
  concurrent_gc : Bool
  coreclr_path : Option RPath
  assembly : Option RPath
  appdomain_name : Option String
  assembly_load_paths : List RPath
  native_library_search_paths : List RPath

/-- Model of `Default for ClrHostBuilder`. -/
def ClrHostBuilder.default : ClrHostBuilder where
  server_gc := false
  concurrent_gc := true
  coreclr_path := none
  assembly := none
  appdomain_name := none
  assembly_load_paths := []
  native_library_search_paths := []

/-- Model of `ClrHostBuilder::new`. -/
def ClrHostBuilder.new : ClrHostBuilder := ClrHostBuilder.default

/-- Model of `with_server_gc`. -/
def ClrHostBuilder.with_server_gc (b : ClrHostBuilder) : ClrHostBuilder :=
  { b with server_gc := true }

/-- Model of `with_workstation_gc`. -/
def ClrHostBuilder.with_workstation_gc (b : ClrHostBuilder) : ClrHostBuilder :=
  { b with server_gc := false }

/-- Model of `with_concurrent_gc`. -/
def ClrHostBuilder.with_concurrent_gc (b : ClrHostBuilder) : ClrHostBuilder :=
  { b with concurrent_gc := true }

/-- Model of `with_nonconcurrent_gc`. -/
def ClrHostBuilder.with_nonconcurrent_gc (b : ClrHostBuilder) : ClrHostBuilder :=
  { b with concurrent_gc := false }

/-- Model of `with_coreclr_path`. -/
def ClrHostBuilder.with_coreclr_path (b : ClrHostBuilder) (path : RPath) : ClrHostBuilder :=
  { b with coreclr_path := some path }

/-- Model of `with_assembly_probe_path`. -/
def ClrHostBuilder.with_assembly_probe_path (b : ClrHostBuilder) (path : RPath) : ClrHostBuilder :=
  { b with assembly_load_paths := b.assembly_load_paths ++ [path] }

/-- Model of `with_native_library_probe_path`. -/
def ClrHostBuilder.with_native_library_probe_path (b : ClrHostBuilder) (path : RPath) :
    ClrHostBuilder :=
  { b with native_library_search_paths := b.native_library_search_paths ++ [path] }

/-- Model of `with_assembly`. -/
def ClrHostBuilder.with_assembly (b : ClrHostBuilder) (path : RPath) : ClrHostBuilder :=
  { b with assembly := some path }

/-- Model of `with_appdomain_name`. -/
def ClrHostBuilder.with_appdomain_name (b : ClrHostBuilder) (name : String) : ClrHostBuilder :=
  { b with appdomain_name := some name }

/-- The validation of `self.coreclr_path` at the top of `build()`. -/
def coreclrPathString (b : ClrHostBuilder) : CallResult String :=
  match b.coreclr_path with
  | none => .err (IoError.new ErrorKind.notFound "no path to coreclr provided")
  | some p =>
    match p.to_str with
    | some s => .ok s
    | none => .err (IoError.new ErrorKind.invalidInput "coreclr path is not valid UTF-8")

/-- The validation of `self.assembly` in `build()`. -/
def assemblyPathString (b : ClrHostBuilder) : CallResult String :=
  match b.assembly with
  | none => .err (IoError.new ErrorKind.notFound "no assembly provided")
  | some p =>
    match p.to_str with
    | some s => .ok s
    | none => .err (IoError.new ErrorKind.invalidInput "assembly path is not valid UTF-8")

/-- The native-search-path loop of `build()`: starting from the coreclr
directory, append `:` then each configured native probing path; a
non-Unicode path aborts with the loop's invalid-input error. -/
def nativeSearchPathGo : List RPath → String → CallResult String
  | [], acc => .ok acc
  | p :: rest, acc =>
    match p.to_str with
    | some s => nativeSearchPathGo rest (acc ++ ":" ++ s)
    | none => .err (IoError.new ErrorKind.invalidInput "native search path is not valid UTF-8")

/-- The probe-path loop of `build()`: a separating `:` is pushed only when
the accumulated string is nonempty (the source reuses the native-search
error message for a non-Unicode path here). -/
def probePathsGo : List RPath → String → CallResult String
  | [], acc => .ok acc
  | p :: rest, acc =>
    match p.to_str with
    | some s =>
      probePathsGo rest (if acc.length ≠ 0 then acc ++ ":" ++ s else acc ++ s)
    | none => .err (IoError.new ErrorKind.invalidInput "native search path is not valid UTF-8")

/-- The `appdomain_name` handling of `build()`: a configured name goes
through `try!(CString::new(..))`; the fixed fallback literal is unwrapped. -/
def appdomainNameC (b : ClrHostBuilder) : CallResult String :=
  match b.appdomain_name with
  | some s => tryE (cstringNew s)
  | none => cstringUnwrap "rust_coreclr_host"

/-- Target platforms distinguished by the `cfg!` chain of `build()`. -/
inductive Platform where
  | macos
  | linux
  | windows

/-- The platform-specific shared-library file name appended to the runtime
directory. -/
def sharedLibName : Platform → String
  | .macos => "libcoreclr.dylib"
  | .linux => "libcoreclr.so"
  | .windows => "coreclr.dll"

/-- What got passed to the `coreclr_initialize` export (an observation of
the foreign call's inputs, recorded so claims can speak about the property
list crossing the boundary). -/
structure InitArgs where
  exePath : String
  appDomainFriendlyName : String
  propertyKeys : List String
  propertyValues : List String
deriving DecidableEq

/-- The external effects `build()` depends on: the platform `dlopen`
(diagnostics included), the directory listing used by `build_tpas`, the
target platform, and the semantics of the four resolved exports. -/
structure BuildEnv where
  dlopen : String → Except IoError DynamicLibrary
  read_dir : String → Except IoError (List String)
  platform : Platform
  ffi : ClrFunctions

/-- The final stage of `build()`: the `assert!` that key and value counts
agree (a failed assertion is an abrupt unwind) followed by the
`coreclr_initialize` invocation — nonzero result becomes a raw-OS error,
zero yields the host holding the library, function table, returned handle
and returned domain id, paired with the recorded initializer arguments. -/
def initStep (ffi : ClrFunctions) (lib : DynamicLibrary) (assembly_c name_c : String)
    (property_keys property_values : List String) : CallResult (ClrHost × InitArgs) :=
  if property_keys.length = property_values.length then
    if (ffi.init_fn assembly_c name_c property_keys property_values).1 ≠ 0 then
      .err (IoError.fromRawOsError (ffi.init_fn assembly_c name_c property_keys property_values).1)
    else
      .ok ({ coreclr := lib, coreclr_funs := ffi,
             coreclr_handle := (ffi.init_fn assembly_c name_c property_keys property_values).2.1,
             domain_id := (ffi.init_fn assembly_c name_c property_keys property_values).2.2 },
           { exePath := assembly_c, appDomainFriendlyName := name_c,
             propertyKeys := property_keys, propertyValues := property_values })
  else .panicked

/-- Model of `ClrHostBuilder::build`, step for step: validate the two
required paths, fold the native search path, load the shared library and
resolve the four exports, fold the probe paths, scan the trusted-assembly
directory, encode the strings (literal keys elide their trivially
successful `CString::new(..).unwrap()` calls), assert equal list lengths,
and invoke the initializer — nonzero result becomes a raw-OS error, zero
yields the host together with the recorded initializer arguments. -/
def ClrHostBuilder.build (b : ClrHostBuilder) (env : BuildEnv) :
    CallResult (ClrHost × InitArgs) :=
  (coreclrPathString b).bind fun coreclr_path_str =>
  (assemblyPathString b).bind fun assembly_path =>
  (nativeSearchPathGo b.native_library_search_paths coreclr_path_str).bind
    fun native_search_path =>
  (tryE (DynamicLibrary.load (coreclr_path_str ++ "/" ++ sharedLibName env.platform)
    env.dlopen)).bind fun lib =>
  (tryE (lib.resolve_symbol "coreclr_initialize")).bind fun _addr_init =>
  (tryE (lib.resolve_symbol "coreclr_shutdown")).bind fun _addr_shutdown =>
  (tryE (lib.resolve_symbol "coreclr_create_delegate")).bind fun _addr_delegate =>
  (tryE (lib.resolve_symbol "coreclr_execute_assembly")).bind fun _addr_execute =>
  (probePathsGo b.assembly_load_paths "").bind fun probe_paths =>
  (tryE (buildTpasIo (env.read_dir coreclr_path_str))).bind fun tpa =>
  (cstringUnwrap assembly_path).bind fun assembly_c =>
  (appdomainNameC b).bind fun name_c =>
  let server_gc := if b.server_gc then "true" else "false"
  let concurrent_gc := if b.concurrent_gc then "true" else "false"
  let property_keys : List String :=
    ["TRUSTED_PLATFORM_ASSEMBLIES", "APP_PATHS", "APP_NI_PATHS",
     "NATIVE_DLL_SEARCH_DIRECTORIES", "AppDomainCompatSwitch",
     "System.GC.Server", "System.GC.Concurrent"]
  (cstringUnwrap tpa).bind fun tpa_c =>
  (cstringUnwrap probe_paths).bind fun probe_c1 =>
  (cstringUnwrap probe_paths).bind fun probe_c2 =>
  (cstringUnwrap native_search_path).bind fun native_c =>
  let property_values : List String :=
    [tpa_c, probe_c1, probe_c2, native_c,
     "UseLatestBehaviorWhenTFMNotSpecified", server_gc, concurrent_gc]
  initStep env.ffi lib assembly_c name_c property_keys property_values

/-- The kind of a host-side error outcome (`none` for success, an abrupt
unwind, or a raw-OS error, whose kind is derived from the code by the
platform rather than chosen by this crate). -/
def errKind {α : Type} : CallResult α → Option ErrorKind
  | .err (IoError.new k _) => some k
  | _ => none

/-- The property-value list a build hands to the initializer, when it
succeeds (`none` otherwise). -/
def buildValues (b : ClrHostBuilder) (env : BuildEnv) : Option (List String) :=
  match b.build env with
  | .ok (_, ia) => some ia.propertyValues
  | _ => none

/-- The property-key list a build hands to the initializer, when it
succeeds (`none` otherwise). -/
def buildKeys (b : ClrHostBuilder) (env : BuildEnv) : Option (List String) :=
  match b.build env with
  | .ok (_, ia) => some ia.propertyKeys
  | _ => none

/-- A dynamic library in which every symbol resolves. -/
def okLib : DynamicLibrary := ⟨fun _ => .ok 3⟩

/-- Export behaviours for a runtime that initializes successfully (handle 7,
domain 1), executes with result 0 / exit code 42, and shuts down cleanly. -/
def okFfi : ClrFunctions where
  init_fn := fun _ _ _ _ => (0, 7, 1)
  shutdown_fn := fun _ _ => 0
  create_delegate_fn := fun _ _ _ _ _ => (0, 9)
  execute_assembly_fn := fun _ _ _ _ => .ret (0, 42)

/-- A fully successful build environment: the runtime directory lists one
`.dll` and one `.txt` entry. -/
def okEnv : BuildEnv where
  dlopen := fun _ => .ok okLib
  read_dir := fun _ => .ok ["/rt/a.dll", "/rt/b.txt"]
  platform := .linux
  ffi := okFfi

/-- A builder with both required fields set and everything else default. -/
def cb0 : ClrHostBuilder :=
  (ClrHostBuilder.new.with_coreclr_path (RPath.utf8 "/rt")).with_assembly
    (RPath.utf8 "/a/app.dll")

/-- The builder of `cb0` with two nonempty probe paths. -/
def cbProbe : ClrHostBuilder :=
  (cb0.with_assembly_probe_path (RPath.utf8 "p")).with_assembly_probe_path (RPath.utf8 "q")

/-- The builder of `cb0` with a leading empty probe path followed by a
nonempty one. -/
def cbProbeEmpty : ClrHostBuilder :=
  (cb0.with_assembly_probe_path (RPath.utf8 "")).with_assembly_probe_path (RPath.utf8 "x")

/-- The builder of `cb0` with server GC and non-concurrent GC selected. -/
def cbGc : ClrHostBuilder :=
  cb0.with_server_gc.with_nonconcurrent_gc

/-- A builder whose runtime directory is a non-Unicode path and whose entry
assembly is unset. -/
def cbNonUnicode : ClrHostBuilder :=
  ClrHostBuilder.new.with_coreclr_path RPath.nonUnicode

/-- A live host whose executor export returns nonzero result 5 (exit code
out-parameter 9) except on assembly path `"z"`, where it returns 0 with
exit code 42. -/
def chExec : ClrHost where
  coreclr := okLib
  coreclr_funs :=
    { init_fn := fun _ _ _ _ => (0, 7, 1)
      shutdown_fn := fun _ _ => 11
      create_delegate_fn := fun _ _ _ _ _ => (0, 9)
      execute_assembly_fn := fun _ _ _ p => if p = "z" then .ret (0, 42) else .ret (5, 9) }
  coreclr_handle := 7
  domain_id := 1

/-- A live host whose executor export aborts with an unwind. -/
def chUnwind : ClrHost where
  coreclr := okLib
  coreclr_funs :=
    { init_fn := fun _ _ _ _ => (0, 7, 1)
      shutdown_fn := fun _ _ => 0
      create_delegate_fn := fun _ _ _ _ _ => (0, 9)
      execute_assembly_fn := fun _ _ _ _ => .unwind }
  coreclr_handle := 7
  domain_id := 1

/-- A sample life of `chExec`: one delegate creation, two executions. -/
def sampleOps : List HostOp :=
  [HostOp.delegateOp "Asm" "Ty" "M", HostOp.execOp ["x"] (RPath.utf8 "p"),
   HostOp.execOp [] (RPath.utf8 "z")]

/-- The host produced by a successful build against `okEnv`. -/
def cHostOk : ClrHost where
  coreclr := okLib
  coreclr_funs := okFfi
  coreclr_handle := 7
  domain_id := 1

/-- The seven property keys of the wire contract, in order. -/
def wireKeys : List String :=
  ["TRUSTED_PLATFORM_ASSEMBLIES", "APP_PATHS", "APP_NI_PATHS",
   "NATIVE_DLL_SEARCH_DIRECTORIES", "AppDomainCompatSwitch",
   "System.GC.Server", "System.GC.Concurrent"]

/-- The initializer arguments of `cb0.build okEnv`. -/
def cIa0 : InitArgs where
  exePath := "/a/app.dll"
  appDomainFriendlyName := "rust_coreclr_host"
  propertyKeys := wireKeys
  propertyValues :=
    ["/rt/a.dll", "", "", "/rt", "UseLatestBehaviorWhenTFMNotSpecified", "false", "true"]

/-- The initializer arguments of `cbProbe.build okEnv`. -/
def cIaProbe : InitArgs where
  exePath := "/a/app.dll"
  appDomainFriendlyName := "rust_coreclr_host"
  propertyKeys := wireKeys
  propertyValues :=
    ["/rt/a.dll", "p:q", "p:q", "/rt", "UseLatestBehaviorWhenTFMNotSpecified", "false", "true"]

/-- The initializer arguments of `cbGc.build okEnv`. -/
def cIaGc : InitArgs where
  exePath := "/a/app.dll"
  appDomainFriendlyName := "rust_coreclr_host"
  propertyKeys := wireKeys
  propertyValues :=
    ["/rt/a.dll", "", "", "/rt", "UseLatestBehaviorWhenTFMNotSpecified", "true", "false"]

theorem CallResult.bind_eq_ok {α β : Type} {x : CallResult α} {f : α → CallResult β} {c : β} :
    x.bind f = .ok c ↔ ∃ a, x = .ok a ∧ f a = .ok c := by
  cases x <;> simp [CallResult.bind]

theorem tryE_eq_ok {α : Type} {x : Except IoError α} {a : α} :
    tryE x = .ok a ↔ x = .ok a := by
  cases x <;> simp [tryE]

theorem cstringUnwrap_eq_ok {s c : String} :
    cstringUnwrap s = .ok c ↔ c = s ∧ isCEncodable s = true := by
  unfold cstringUnwrap cstringNew
  by_cases h : isCEncodable s = true <;> simp [h, eq_comm]

theorem cstringNew_of_encodable {s : String} (h : isCEncodable s = true) :
    cstringNew s = .ok s := by
  simp [cstringNew, h]

theorem cstringNew_of_not_encodable {s : String} (h : isCEncodable s = false) :
    cstringNew s = .error nulError := by
  simp [cstringNew, h]

theorem encodeArgs_of_encodable {args : List String}
    (h : ∀ a ∈ args, isCEncodable a = true) : encodeArgs args = .ok args := by
  induction args with
  | nil => rfl
  | cons a rest ih =>
    have ha : isCEncodable a = true := h a (by simp)
    have hr : encodeArgs rest = .ok rest := ih (fun x hx => h x (by simp [hx]))
    simp [encodeArgs, cstringNew_of_encodable ha, hr, Except.map]

theorem encodeArgs_err {args : List String}
    (h : ∃ a ∈ args, isCEncodable a = false) : encodeArgs args = .error nulError := by
  induction args with
  | nil => simp at h
  | cons a rest ih =>
    by_cases ha : isCEncodable a = true
    · have hrest : ∃ x ∈ rest, isCEncodable x = false := by
        rcases h with ⟨x, hx, hxf⟩
        rcases List.mem_cons.mp hx with rfl | hx'
        · exact absurd ha (by simp [hxf])
        · exact ⟨x, hx', hxf⟩
      simp [encodeArgs, cstringNew_of_encodable ha, ih hrest, Except.map]
    · simp [encodeArgs, cstringNew_of_not_encodable (by simpa using ha)]

/-- C8: for every host, `create_delegate` with a type name that has an
interior NUL (is not text-encodable) fails with the invalid-input NUL
error, and the delegate-creator export is not invoked (the foreign-call
trace is empty). -/
theorem create_delegate_nul_type_name (h : ClrHost) (a t m : String)
    (ht : isCEncodable t = false) :
    (h.create_delegate a t m).1 = .err nulError
    ∧ errKind (h.create_delegate a t m).1 = some ErrorKind.invalidInput
    ∧ (h.create_delegate a t m).2 = [] := by
  unfold ClrHost.create_delegate
  by_cases ha : isCEncodable a = true
  · simp [cstringNew_of_encodable ha, cstringNew_of_not_encodable ht, errKind, nulError]
  · simp [cstringNew_of_not_encodable (by simpa using ha), errKind, nulError]

/-- Witness for C8 at a concrete host and a type name with an interior NUL. -/
theorem create_delegate_nul_type_name_witness :
    (chExec.create_delegate "Asm" "Ty\x00pe" "M").1 = .err nulError
    ∧ errKind (chExec.create_delegate "Asm" "Ty\x00pe" "M").1 = some ErrorKind.invalidInput
    ∧ (chExec.create_delegate "Asm" "Ty\x00pe" "M").2 = [] :=
  create_delegate_nul_type_name chExec "Asm" "Ty\x00pe" "M" (by decide)

/-- C9: `execute_assembly` never lets an abrupt unwind escape: its result is
never the panic outcome, and whenever the wrapped call unwinds abruptly the
caller receives the single generic "unhandled CLR exception" error. -/
theorem execute_assembly_catches_unwind (h : ClrHost) (args : List String) (path : RPath) :
    (h.execute_assembly args path).1 ≠ CallResult.panicked
    ∧ ((h.execute_assembly_impl args path).1 = CallResult.panicked →
        (h.execute_assembly args path).1 =
          .err (IoError.new ErrorKind.other "unhandled CLR exception")) := by
  unfold ClrHost.execute_assembly
  cases himpl : (h.execute_assembly_impl args path).1 <;> simp [himpl]

/-- Witness for C9: a host whose executor export unwinds; the caller sees
the generic error. -/
theorem execute_assembly_catches_unwind_witness :
    (chUnwind.execute_assembly [] (RPath.utf8 "p")).1 =
      .err (IoError.new ErrorKind.other "unhandled CLR exception") :=
  (execute_assembly_catches_unwind chUnwind [] (RPath.utf8 "p")).2 (by decide)

/-- C10: for every host, `execute_assembly` with an argument list containing
a string with an interior NUL fails with the invalid-input NUL error, and
the executor export is not invoked (the foreign-call trace is empty). -/
theorem execute_assembly_nul_arg (h : ClrHost) (args : List String) (path : RPath)
    (ha : ∃ a ∈ args, isCEncodable a = false) :
    (h.execute_assembly args path).1 = .err nulError
    ∧ errKind (h.execute_assembly args path).1 = some ErrorKind.invalidInput
    ∧ (h.execute_assembly args path).2 = [] := by
  have himpl : h.execute_assembly_impl args path = (.err nulError, []) := by
    unfold ClrHost.execute_assembly_impl
    simp [encodeArgs_err ha]
  unfold ClrHost.execute_assembly
  simp [himpl, errKind, nulError]

/-- Witness for C10 at a concrete host and an argument with an interior NUL. -/
theorem execute_assembly_nul_arg_witness :
    (chExec.execute_assembly ["ok", "b\x00ad"] (RPath.utf8 "p")).1 = .err nulError
    ∧ errKind (chExec.execute_assembly ["ok", "b\x00ad"] (RPath.utf8 "p")).1 =
        some ErrorKind.invalidInput
    ∧ (chExec.execute_assembly ["ok", "b\x00ad"] (RPath.utf8 "p")).2 = [] :=
  execute_assembly_nul_arg chExec ["ok", "b\x00ad"] (RPath.utf8 "p")
    ⟨"b\x00ad", by decide, by decide⟩

/-- C7: for every host, text-encodable argument list and assembly path, a
nonzero executor result code surfaces as an error carrying exactly that
code, and a zero result code yields success carrying the executor's
out-parameter exit code. -/
theorem execute_assembly_result_code (h : ClrHost) (args : List String) (path : RPath)
    (p : String) (r : Int) (ec : Nat)
    (hargs : ∀ a ∈ args, isCEncodable a = true)
    (hpath : path.to_str = some p)
    (hp : isCEncodable p = true)
    (hffi : h.coreclr_funs.execute_assembly_fn h.coreclr_handle h.domain_id args p =
      .ret (r, ec)) :
    (r ≠ 0 → (h.execute_assembly args path).1 = .err (IoError.fromRawOsError r))
    ∧ (r = 0 → (h.execute_assembly args path).1 = .ok ec) := by
  have himpl : h.execute_assembly_impl args path =
      (if r ≠ 0 then (.err (IoError.fromRawOsError r), [FCall.executeCall args p])
       else (.ok ec, [FCall.executeCall args p])) := by
    unfold ClrHost.execute_assembly_impl
    simp [encodeArgs_of_encodable hargs, hpath, cstringNew_of_encodable hp, hffi]
  constructor
  · intro hr
    unfold ClrHost.execute_assembly
    simp [himpl, hr]
  · intro hr
    unfold ClrHost.execute_assembly
    simp [himpl, hr]

/-- Witness for C7: a host whose executor returns code 5 on path `"p"` and
code 0 with exit code 42 on path `"z"`. -/
theorem execute_assembly_result_code_witness :
    (chExec.execute_assembly ["x"] (RPath.utf8 "p")).1 = .err (IoError.fromRawOsError 5)
    ∧ (chExec.execute_assembly [] (RPath.utf8 "z")).1 = .ok 42 :=
  ⟨(execute_assembly_result_code chExec ["x"] (RPath.utf8 "p") "p" 5 9
      (by decide) rfl (by decide) rfl).1 (by decide),
   (execute_assembly_result_code chExec [] (RPath.utf8 "z") "z" 0 42
      (by decide) rfl (by decide) rfl).2 rfl⟩

theorem execute_assembly_impl_trace_invoke (h : ClrHost) (args : List String) (path : RPath) :
    ∀ e ∈ (h.execute_assembly_impl args path).2, e.isInvoke = true := by
  intro e he
  unfold ClrHost.execute_assembly_impl at he
  repeat' split at he
  all_goals simp_all [FCall.isInvoke]

theorem execute_assembly_snd_eq_impl (h : ClrHost) (args : List String) (path : RPath) :
    (h.execute_assembly args path).2 = (h.execute_assembly_impl args path).2 := by
  unfold ClrHost.execute_assembly
  cases himpl : (h.execute_assembly_impl args path).1 <;> simp [himpl]

theorem execute_assembly_trace_invoke (h : ClrHost) (args : List String) (path : RPath) :
    ∀ e ∈ (h.execute_assembly args path).2, e.isInvoke = true := by
  intro e he
  rw [execute_assembly_snd_eq_impl] at he
  exact execute_assembly_impl_trace_invoke h args path e he

theorem create_delegate_trace_invoke (h : ClrHost) (a t m : String) :
    ∀ e ∈ (h.create_delegate a t m).2, e.isInvoke = true := by
  intro e he
  unfold ClrHost.create_delegate at he
  repeat' split at he
  all_goals simp_all [FCall.isInvoke, apply_ite Prod.snd]

theorem runOp_trace_invoke (h : ClrHost) (op : HostOp) :
    ∀ e ∈ h.runOp op, e.isInvoke = true := by
  cases op with
  | execOp args p => exact execute_assembly_trace_invoke h args p
  | delegateOp a t m => exact create_delegate_trace_invoke h a t m

theorem lifetime_prefix_invoke (h : ClrHost) (ops : List HostOp) :
    ∀ e ∈ (ops.map h.runOp).flatten, e.isInvoke = true := by
  intro e he
  rcases List.mem_flatten.mp he with ⟨l, hl, hel⟩
  rcases List.mem_map.mp hl with ⟨op, _, rfl⟩
  exact runOp_trace_invoke h op e hel

theorem invoke_not_shutdown {e : FCall} (h : e.isInvoke = true) : e.isShutdown = false := by
  cases e <;> simp_all [FCall.isInvoke, FCall.isShutdown]

theorem invoke_not_release {e : FCall} (h : e.isInvoke = true) : e.isRelease = false := by
  cases e <;> simp_all [FCall.isInvoke, FCall.isRelease]

/-- C1: over any host lifetime — any number of execute/create-delegate
calls followed by the end-of-life drop — the full foreign-call trace is the
in-life invocations followed by exactly the shutdown call and then the
library release: the shutdown export is invoked exactly once, the release
happens strictly after it, no in-life operation ever emits either teardown
event, and the drop discards the shutdown export's result code (recorded in
the trace) rather than propagating it, always completing with a plain unit
success. -/
theorem lifetime_shutdown_once_release_after (h : ClrHost) (ops : List HostOp) :
    h.lifetimeTrace ops =
      (ops.map h.runOp).flatten ++
        [FCall.shutdownCall h.coreclr_handle h.domain_id
          (h.coreclr_funs.shutdown_fn h.coreclr_handle h.domain_id),
         FCall.releaseLibrary]
    ∧ (∀ e ∈ (ops.map h.runOp).flatten, e.isInvoke = true)
    ∧ (h.lifetimeTrace ops).countP (fun e => e.isShutdown) = 1
    ∧ (h.lifetimeTrace ops).countP (fun e => e.isRelease) = 1
    ∧ (h.drop).1 = CallResult.ok () := by
  have hpre := lifetime_prefix_invoke h ops
  have hzero_s : ((ops.map h.runOp).flatten).countP (fun e => e.isShutdown) = 0 :=
    List.countP_eq_zero.mpr (fun e he => by simp [invoke_not_shutdown (hpre e he)])
  have hzero_r : ((ops.map h.runOp).flatten).countP (fun e => e.isRelease) = 0 :=
    List.countP_eq_zero.mpr (fun e he => by simp [invoke_not_release (hpre e he)])
  refine ⟨rfl, hpre, ?_, ?_, rfl⟩
  · unfold ClrHost.lifetimeTrace
    rw [List.countP_append, hzero_s]
    simp [ClrHost.drop, DynamicLibrary.dropTrace, List.countP_cons, FCall.isShutdown]
  · unfold ClrHost.lifetimeTrace
    rw [List.countP_append, hzero_r]
    simp [ClrHost.drop, DynamicLibrary.dropTrace, List.countP_cons, FCall.isRelease]

/-- Witness for C1 at a concrete host and a concrete three-operation life. -/
theorem lifetime_shutdown_once_release_after_witness :
    chExec.lifetimeTrace sampleOps =
      (sampleOps.map chExec.runOp).flatten ++
        [FCall.shutdownCall chExec.coreclr_handle chExec.domain_id
          (chExec.coreclr_funs.shutdown_fn chExec.coreclr_handle chExec.domain_id),
         FCall.releaseLibrary]
    ∧ (chExec.lifetimeTrace sampleOps).countP (fun e => e.isShutdown) = 1
    ∧ (chExec.lifetimeTrace sampleOps).countP (fun e => e.isRelease) = 1
    ∧ (chExec.drop).1 = CallResult.ok () := by
  have h := lifetime_shutdown_once_release_after chExec sampleOps
  exact ⟨h.1, h.2.2.1, h.2.2.2.1, h.2.2.2.2⟩

theorem tpasGo_mem : ∀ (l seen : List String) (x : String),
    x ∈ tpasGo l seen ↔ (x ∈ l ∧ tpasKeep x = true ∧ x ∉ seen) := by
  intro l
  induction l with
  | nil => intro seen x; simp [tpasGo]
  | cons e rest ih =>
    intro seen x
    unfold tpasGo
    by_cases ke : tpasKeep e = true
    · by_cases es : e ∈ seen
      · rw [if_pos ke, if_pos es, ih]
        by_cases hx : x = e
        · subst hx; simp [es]
        · simp [hx]
      · rw [if_pos ke, if_neg es]
        by_cases hx : x = e
        · subst hx; simp [ke, es]
        · constructor
          · intro hmem
            rcases List.mem_cons.mp hmem with heq | hmem'
            · exact absurd heq hx
            · have hrec := (ih (e :: seen) x).mp hmem'
              exact ⟨List.mem_cons_of_mem e hrec.1, hrec.2.1,
                fun hs => hrec.2.2 (List.mem_cons_of_mem e hs)⟩
          · rintro ⟨h1, h2, h3⟩
            rcases List.mem_cons.mp h1 with heq | h1'
            · exact absurd heq hx
            · exact List.mem_cons_of_mem e ((ih (e :: seen) x).mpr
                ⟨h1', h2, fun hs => (List.mem_cons.mp hs).elim hx h3⟩)
    · rw [if_neg ke, ih]
      by_cases hx : x = e
      · subst hx; simp [ke]
      · simp [hx]

theorem tpasGo_nodup : ∀ (l seen : List String), (tpasGo l seen).Nodup := by
  intro l
  induction l with
  | nil => intro seen; simp [tpasGo]
  | cons e rest ih =>
    intro seen
    unfold tpasGo
    by_cases ke : tpasKeep e = true
    · by_cases es : e ∈ seen
      · rw [if_pos ke, if_pos es]; exact ih seen
      · rw [if_pos ke, if_neg es]
        refine List.nodup_cons.mpr ⟨?_, ih (e :: seen)⟩
        intro hmem
        exact ((tpasGo_mem rest (e :: seen) e).mp hmem).2.2 (by simp)
    · rw [if_neg ke]; exact ih seen

theorem tpasGo_sublist : ∀ (l seen : List String), (tpasGo l seen).Sublist (l.filter tpasKeep) := by
  intro l
  induction l with
  | nil => intro seen; simp [tpasGo]
  | cons e rest ih =>
    intro seen
    unfold tpasGo
    by_cases ke : tpasKeep e = true
    · by_cases es : e ∈ seen
      · rw [if_pos ke, if_pos es, List.filter_cons_of_pos ke]
        exact (ih seen).cons e
      · rw [if_pos ke, if_neg es, List.filter_cons_of_pos ke]
        exact (ih (e :: seen)).cons₂ e
    · rw [if_neg ke, List.filter_cons_of_neg (by simpa using ke)]
      exact ih seen

theorem pairwise_indexOf_lift {d rest : List String} {e : String}
    (hne : ∀ x ∈ d, x ≠ e)
    (hp : d.Pairwise (fun a b => rest.indexOf a < rest.indexOf b)) :
    d.Pairwise (fun a b => (e :: rest).indexOf a < (e :: rest).indexOf b) := by
  refine hp.imp_of_mem ?_
  intro a b ha hb hab
  rw [List.indexOf_cons_ne rest (Ne.symm (hne a ha)),
      List.indexOf_cons_ne rest (Ne.symm (hne b hb))]
  omega

theorem tpasGo_pairwise : ∀ (l seen : List String),
    (tpasGo l seen).Pairwise (fun a b => l.indexOf a < l.indexOf b) := by
  intro l
  induction l with
  | nil => intro seen; simp [tpasGo]
  | cons e rest ih =>
    intro seen
    unfold tpasGo
    by_cases ke : tpasKeep e = true
    · by_cases es : e ∈ seen
      · rw [if_pos ke, if_pos es]
        refine pairwise_indexOf_lift ?_ (ih seen)
        intro x hx hxe
        exact ((tpasGo_mem rest seen x).mp hx).2.2 (hxe.symm ▸ es)
      · rw [if_pos ke, if_neg es]
        refine List.pairwise_cons.mpr ⟨?_, ?_⟩
        · intro b hb
          have hbne : b ≠ e := fun h =>
            ((tpasGo_mem rest (e :: seen) b).mp hb).2.2 (by simp [h])
          rw [List.indexOf_cons_self, List.indexOf_cons_ne rest (fun h => (hbne h.symm).elim)]
          omega
        · refine pairwise_indexOf_lift ?_ (ih (e :: seen))
          intro x hx hxe
          exact ((tpasGo_mem rest (e :: seen) x).mp hx).2.2 (by simp [hxe])
    · rw [if_neg ke]
      refine pairwise_indexOf_lift ?_ (ih seen)
      intro x hx hxe
      exact ke (hxe ▸ ((tpasGo_mem rest seen x).mp hx).2.1)

/-- C2: for every directory listing, the trusted-assembly scan joins with
`:` (no leading or trailing separator, the empty kept-list yielding the
empty string) a list that contains a path exactly when the listing contains
it with extension exactly `dll` or `exe` (case-sensitive), contains no
duplicates, is a sublist of the matching entries (so insertion order is
preserved), and is ordered by first occurrence in the listing. -/
theorem build_tpas_spec (entries : List String) :
    build_tpas entries = String.intercalate ":" (tpasList entries)
    ∧ (tpasList entries).Nodup
    ∧ (∀ p, p ∈ tpasList entries ↔ (p ∈ entries ∧ tpasKeep p = true))
    ∧ (tpasList entries).Sublist (entries.filter tpasKeep)
    ∧ (tpasList entries).Pairwise (fun p q => entries.indexOf p < entries.indexOf q)
    ∧ (tpasList entries = [] → build_tpas entries = "") := by
  refine ⟨rfl, tpasGo_nodup entries [], ?_, tpasGo_sublist entries [],
    tpasGo_pairwise entries [], ?_⟩
  · intro p
    rw [tpasList, tpasGo_mem]
    simp
  · intro hnil
    rw [build_tpas, tpasList] at *
    rw [hnil]
    rfl

/-- Witness for C2 at a concrete mixed listing with a duplicate `.dll`, a
`.txt`, an uppercase `.DLL` and an `.exe`. -/
theorem build_tpas_spec_witness :
    build_tpas ["/r/a.dll", "/r/b.txt", "/r/c.exe", "/r/a.dll", "/r/d.DLL"] =
      "/r/a.dll:/r/c.exe"
    ∧ (tpasList ["/r/a.dll", "/r/b.txt", "/r/c.exe", "/r/a.dll", "/r/d.DLL"]).Nodup
    ∧ build_tpas [] = "" := by
  have h := build_tpas_spec ["/r/a.dll", "/r/b.txt", "/r/c.exe", "/r/a.dll", "/r/d.DLL"]
  exact ⟨by decide, h.2.1, (build_tpas_spec []).2.2.2.2.2 (by decide)⟩

theorem cb0_build_eq : cb0.build okEnv = .ok (cHostOk, cIa0) := rfl

theorem cbProbe_build_eq : cbProbe.build okEnv = .ok (cHostOk, cIaProbe) := rfl

theorem cbGc_build_eq : cbGc.build okEnv = .ok (cHostOk, cIaGc) := rfl

theorem length_ne_zero_of_ne_empty {s : String} (h : s ≠ "") : s.length ≠ 0 := by
  cases s with
  | mk data =>
    cases data with
    | nil => exact absurd rfl h
    | cons c cs => simp

theorem probePathsGo_acc (ss : List String) : ∀ acc : String, acc.length ≠ 0 →
    probePathsGo (ss.map RPath.utf8) acc = .ok (String.intercalate.go acc ":" ss) := by
  induction ss with
  | nil => intro acc h; simp [probePathsGo, String.intercalate.go]
  | cons a ss ih =>
    intro acc h
    simp only [List.map_cons, probePathsGo, RPath.to_str]
    rw [if_pos h, String.intercalate.go]
    refine ih (acc ++ ":" ++ a) ?_
    have h1 : (acc ++ ":" ++ a).length = acc.length + 1 + a.length := by
      simp [String.length_append, show (":" : String).length = 1 from rfl]
    omega

theorem probePathsGo_utf8 (ss : List String) :
    probePathsGo (ss.map RPath.utf8) "" =
      .ok (String.intercalate ":" (ss.dropWhile (fun s => s == ""))) := by
  induction ss with
  | nil => simp [probePathsGo, String.intercalate]
  | cons a ss ih =>
    simp only [List.map_cons, probePathsGo, RPath.to_str]
    rw [if_neg (by simp)]
    by_cases ha : a = ""
    · subst ha
      rw [String.empty_append, ih]
      simp [List.dropWhile_cons]
    · rw [String.empty_append, probePathsGo_acc ss a (length_ne_zero_of_ne_empty ha)]
      simp [List.dropWhile_cons, ha]
      rfl

theorem initStep_eq_ok_inv {ffi : ClrFunctions} {lib : DynamicLibrary}
    {ac nc : String} {ks vs : List String} {hh : ClrHost} {ia : InitArgs}
    (h : initStep ffi lib ac nc ks vs = .ok (hh, ia)) :
    ia.propertyKeys = ks ∧ ia.propertyValues = vs := by
  unfold initStep at h
  split at h
  · split at h
    · exact absurd h (by simp)
    · simp only [CallResult.ok.injEq, Prod.mk.injEq] at h
      rw [← h.2]
      exact ⟨rfl, rfl⟩
  · exact absurd h (by simp)

theorem build_ok_inv {b : ClrHostBuilder} {env : BuildEnv} {hh : ClrHost} {ia : InitArgs}
    (hb : b.build env = .ok (hh, ia)) :
    ∃ tpa probe native,
      probePathsGo b.assembly_load_paths "" = .ok probe
      ∧ ia.propertyKeys = wireKeys
      ∧ ia.propertyValues = [tpa, probe, probe, native,
          "UseLatestBehaviorWhenTFMNotSpecified",
          if b.server_gc then "true" else "false",
          if b.concurrent_gc then "true" else "false"] := by
  unfold ClrHostBuilder.build at hb
  simp only [CallResult.bind_eq_ok] at hb
  obtain ⟨cp, hcp, ap, hap, nsp, hnsp, lib, hlib, a1, ha1, a2, ha2, a3, ha3, a4, ha4,
    probe, hprobe, tpa, htpa, asmc, hasmc, namec, hnamec, tpac, htpac,
    p1, hp1, p2, hp2, natc, hnatc, hfinal⟩ := hb
  obtain ⟨hkeys, hvals⟩ := initStep_eq_ok_inv hfinal
  obtain ⟨hc1, henc1⟩ := cstringUnwrap_eq_ok.mp hp1
  obtain ⟨hc2, henc2⟩ := cstringUnwrap_eq_ok.mp hp2
  rw [hc1, hc2] at hvals
  exact ⟨tpac, probe, natc, hprobe, hkeys, hvals⟩

/-- C3 (amended): a builder whose N configured assembly-probe paths are all
text, on any successful build, passes as the probing-path property the
colon-join of those paths after dropping any leading empty ones; in
particular, when no probe path is the empty string the property is the
colon-join of all N paths in insertion order, and in every case the very
same string is the value of both the APP_PATHS (index 1) and APP_NI_PATHS
(index 2) properties. -/
theorem build_probe_paths (b : ClrHostBuilder) (env : BuildEnv) (ss : List String)
    (hh : ClrHost) (ia : InitArgs)
    (hss : b.assembly_load_paths = ss.map RPath.utf8)
    (hb : b.build env = .ok (hh, ia)) :
    ia.propertyValues.get? 1 =
      some (String.intercalate ":" (ss.dropWhile (fun s => s == "")))
    ∧ ia.propertyValues.get? 2 = ia.propertyValues.get? 1
    ∧ ("" ∉ ss →
        ia.propertyValues.get? 1 = some (String.intercalate ":" ss)
        ∧ ss.length = b.assembly_load_paths.length) := by
  obtain ⟨tpa, probe, native, hprobe, hkeys, hvals⟩ := build_ok_inv hb
  rw [hss, probePathsGo_utf8] at hprobe
  have hpe : probe = String.intercalate ":" (ss.dropWhile (fun s => s == "")) := by
    cases hprobe
    rfl
  have hdrop : "" ∉ ss → ss.dropWhile (fun s => s == "") = ss := by
    intro hne
    cases ss with
    | nil => rfl
    | cons a tl =>
      have hane : a ≠ "" := fun hq => hne (by simp [hq])
      have haa : (a == "") = false := beq_eq_false_iff_ne.mpr hane
      simp [List.dropWhile_cons, haa]
  refine ⟨?_, ?_, ?_⟩
  · simp [hvals, hpe]
  · simp [hvals]
  · intro hne
    refine ⟨?_, by simp [hss]⟩
    simp [hvals, hpe, hdrop hne]

/-- Witness for C3 at a builder with the two nonempty probe paths `p`, `q`. -/
theorem build_probe_paths_witness :
    cIaProbe.propertyValues.get? 1 = some (String.intercalate ":" ["p", "q"])
    ∧ cIaProbe.propertyValues.get? 2 = cIaProbe.propertyValues.get? 1 := by
  have h := build_probe_paths cbProbe okEnv ["p", "q"] cHostOk cIaProbe (by decide)
    cbProbe_build_eq
  exact ⟨(h.2.2 (by decide)).1, h.2.1⟩

/-- Counterexample to C3 as stated: with the text-encodable probe paths
`["", "x"]` the build succeeds but the probing-path property is `"x"`,
which is not the colon-join `":x"` of the two configured segments. -/
theorem build_probe_paths_counterexample :
    cbProbeEmpty.assembly_load_paths = [RPath.utf8 "", RPath.utf8 "x"]
    ∧ (buildValues cbProbeEmpty okEnv).bind (fun vs => vs.get? 1) = some "x"
    ∧ some "x" ≠ some (String.intercalate ":" ["", "x"]) := by
  refine ⟨by decide, by decide, by decide⟩

/-- C4 (amended): `build()` fails with the not-found error whenever the
coreclr path is unset, independent of everything else; and it fails with
the not-found error whenever the entry assembly is unset, independent of
every other option, provided the coreclr path (which is validated first)
is unset or text — a coreclr path that is set but not Unicode fails with
invalid-input before the assembly check is reached. -/
theorem build_missing_required (b : ClrHostBuilder) (env : BuildEnv) :
    (b.coreclr_path = none →
      b.build env = .err (IoError.new ErrorKind.notFound "no path to coreclr provided"))
    ∧ (∀ s, b.assembly = none → b.coreclr_path = some (RPath.utf8 s) →
      b.build env = .err (IoError.new ErrorKind.notFound "no assembly provided")) := by
  constructor
  · intro hc
    unfold ClrHostBuilder.build
    simp [coreclrPathString, hc, CallResult.bind]
  · intro s ha hc
    unfold ClrHostBuilder.build
    simp [coreclrPathString, assemblyPathString, hc, ha, RPath.to_str, CallResult.bind]

/-- Witness for C4: a builder with nothing set fails not-found on the
coreclr path; a builder with only a Unicode coreclr path fails not-found
on the assembly. -/
theorem build_missing_required_witness :
    ClrHostBuilder.new.build okEnv =
      .err (IoError.new ErrorKind.notFound "no path to coreclr provided")
    ∧ (ClrHostBuilder.new.with_coreclr_path (RPath.utf8 "/rt")).build okEnv =
      .err (IoError.new ErrorKind.notFound "no assembly provided") :=
  ⟨(build_missing_required ClrHostBuilder.new okEnv).1 rfl,
   (build_missing_required (ClrHostBuilder.new.with_coreclr_path (RPath.utf8 "/rt")) okEnv).2
     "/rt" rfl rfl⟩

/-- Counterexample to C4 as stated: with the entry assembly unset but the
coreclr path set to a non-Unicode path, `build()` fails with an
invalid-input error, not a not-found error. -/
theorem build_missing_required_counterexample :
    cbNonUnicode.assembly = none
    ∧ errKind (cbNonUnicode.build okEnv) = some ErrorKind.invalidInput
    ∧ errKind (cbNonUnicode.build okEnv) ≠ some ErrorKind.notFound := by
  refine ⟨rfl, by decide, by decide⟩

/-- C5: on every successful build the `System.GC.Server` value (index 5) is
`"true"`/`"false"` exactly per the builder's server-GC flag and the
`System.GC.Concurrent` value (index 6) per its concurrent-GC flag; the
default configuration has workstation (non-server) and concurrent GC;
selecting server and non-concurrent GC flips both; and for either
exclusive pair the later of two conflicting calls wins. -/
theorem build_gc_flags :
    (∀ (b : ClrHostBuilder) (env : BuildEnv) (hh : ClrHost) (ia : InitArgs),
      b.build env = .ok (hh, ia) →
      ia.propertyValues.get? 5 = some (if b.server_gc then "true" else "false")
      ∧ ia.propertyValues.get? 6 = some (if b.concurrent_gc then "true" else "false"))
    ∧ (ClrHostBuilder.new.server_gc = false ∧ ClrHostBuilder.new.concurrent_gc = true)
    ∧ (∀ b : ClrHostBuilder,
        (b.with_server_gc.with_nonconcurrent_gc).server_gc = true
        ∧ (b.with_server_gc.with_nonconcurrent_gc).concurrent_gc = false)
    ∧ (∀ b : ClrHostBuilder,
        (b.with_server_gc.with_workstation_gc).server_gc = false
        ∧ (b.with_workstation_gc.with_server_gc).server_gc = true
        ∧ (b.with_concurrent_gc.with_nonconcurrent_gc).concurrent_gc = false
        ∧ (b.with_nonconcurrent_gc.with_concurrent_gc).concurrent_gc = true) := by
  refine ⟨?_, ⟨rfl, rfl⟩, fun b => ⟨rfl, rfl⟩, fun b => ⟨rfl, rfl, rfl, rfl⟩⟩
  intro b env hh ia hb
  obtain ⟨tpa, probe, native, hprobe, hkeys, hvals⟩ := build_ok_inv hb
  simp [hvals]

/-- Witness for C5: the default-flag builder `cb0` yields `"false"`/`"true"`,
and the server+non-concurrent builder `cbGc` yields `"true"`/`"false"`. -/
theorem build_gc_flags_witness :
    cIa0.propertyValues.get? 5 = some "false"
    ∧ cIa0.propertyValues.get? 6 = some "true"
    ∧ cIaGc.propertyValues.get? 5 = some "true"
    ∧ cIaGc.propertyValues.get? 6 = some "false" := by
  have h0 := build_gc_flags.1 cb0 okEnv cHostOk cIa0 cb0_build_eq
  have h1 := build_gc_flags.1 cbGc okEnv cHostOk cIaGc cbGc_build_eq
  have e5 : (if cb0.server_gc then "true" else "false") = "false" := rfl
  have e6 : (if cb0.concurrent_gc then "true" else "false") = "true" := rfl
  have f5 : (if cbGc.server_gc then "true" else "false") = "true" := rfl
  have f6 : (if cbGc.concurrent_gc then "true" else "false") = "false" := rfl
  exact ⟨e5 ▸ h0.1, e6 ▸ h0.2, f5 ▸ h1.1, f6 ▸ h1.2⟩

/-- C6: every successful `build()` passes the initializer exactly the seven
property keys of the wire contract in their fixed order, with the fixed
`AppDomainCompatSwitch` value at index 4 and as many values as keys. -/
theorem build_property_set (b : ClrHostBuilder) (env : BuildEnv) (hh : ClrHost) (ia : InitArgs)
    (hb : b.build env = .ok (hh, ia)) :
    ia.propertyKeys = ["TRUSTED_PLATFORM_ASSEMBLIES", "APP_PATHS", "APP_NI_PATHS",
      "NATIVE_DLL_SEARCH_DIRECTORIES", "AppDomainCompatSwitch",
      "System.GC.Server", "System.GC.Concurrent"]
    ∧ ia.propertyValues.get? 4 = some "UseLatestBehaviorWhenTFMNotSpecified"
    ∧ ia.propertyKeys.length = 7
    ∧ ia.propertyValues.length = ia.propertyKeys.length := by
  obtain ⟨tpa, probe, native, hprobe, hkeys, hvals⟩ := build_ok_inv hb
  exact ⟨hkeys.trans rfl, by simp [hvals], by simp [hkeys, wireKeys],
    by simp [hvals, hkeys, wireKeys]⟩

/-- Witness for C6 at the concrete successful build of `cb0`. -/
theorem build_property_set_witness :
    cIa0.propertyKeys = ["TRUSTED_PLATFORM_ASSEMBLIES", "APP_PATHS", "APP_NI_PATHS",
      "NATIVE_DLL_SEARCH_DIRECTORIES", "AppDomainCompatSwitch",
      "System.GC.Server", "System.GC.Concurrent"]
    ∧ cIa0.propertyValues.get? 4 = some "UseLatestBehaviorWhenTFMNotSpecified"
    ∧ cIa0.propertyKeys.length = 7
    ∧ cIa0.propertyValues.length = cIa0.propertyKeys.length :=
  build_property_set cb0 okEnv cHostOk cIa0 cb0_build_eq
